import Mathlib

/-!
Verification development for the IBEX AI backend (src/app.py).

The orchestration core of the backend is embedded shallowly over `List Char`
(Python strings), with the external generative model represented by an oracle
value (`GenAttempt`): the model either raises during the call or returns a
decoded raw string.  Wall-clock fields of the HTTP responses
(processing_time_ms, timestamp) are not embeddable and are elided; the
`response` and model-tag fields, which the claims are about, are kept.
-/

set_option maxRecDepth 8000

/-- Python `p in s` (contiguous-substring containment) on character lists. -/
def isSubstr (p : List Char) : List Char → Bool
  | [] => p.isEmpty
  | c :: rest => p.isPrefixOf (c :: rest) || isSubstr p rest

/-- Python `s.replace(p, "")` restricted to empty replacement, written with
explicit fuel so that it is structural and kernel-evaluable.  Scans left to
right, removing non-overlapping occurrences of `p`.  An empty pattern leaves
the string unchanged, as in Python `s.replace("", "")`. -/
def removeAllFuel : Nat → List Char → List Char → List Char
  | 0, _, s => s
  | _ + 1, _, [] => []
  | fuel + 1, p, c :: rest =>
    if p ≠ [] ∧ p.isPrefixOf (c :: rest) = true then
      removeAllFuel fuel p ((c :: rest).drop p.length)
    else
      c :: removeAllFuel fuel p rest

/-- Python `s.replace(p, "")`: remove every occurrence of `p` from `s`. -/
def removeAll (p s : List Char) : List Char :=
  removeAllFuel s.length p s

/-- Python `s.strip()`: drop whitespace from both ends. -/
def strip (s : List Char) : List Char :=
  ((s.dropWhile Char.isWhitespace).reverse.dropWhile Char.isWhitespace).reverse

/-- Python `s.split('.')`: split on every period, keeping empty segments. -/
def splitDot : List Char → List (List Char)
  | [] => [[]]
  | c :: rest =>
    if c = '.' then [] :: splitDot rest
    else
      match splitDot rest with
      | [] => [[c]]
      | t :: ts => (c :: t) :: ts

/-- Python `'. '.join(xs)`. -/
def joinSents : List (List Char) → List Char
  | [] => []
  | [s] => s
  | s :: rest => s ++ '.' :: ' ' :: joinSents rest

/-- Python `s.endswith('.')`. -/
def endsDot (s : List Char) : Bool :=
  s.getLast? == some '.'

/-- Python `s[-n:]`: the last `n` elements of a list. -/
def lastN {α : Type} (l : List α) (n : Nat) : List α :=
  l.drop (l.length - n)

/-- app.py line 66: greeting keywords, in source order. -/
def greeting_keywords : List (List Char) :=
  ["hello".data, "hi".data, "hey".data, "good morning".data]

/-- app.py line 68: threat keywords, in source order. -/
def threat_keywords : List (List Char) :=
  ["threat".data, "suspicious".data, "scam".data, "phishing".data,
   "hack".data, "dangerous".data]

/-- app.py line 70: help keywords, in source order. -/
def help_keywords : List (List Char) :=
  ["help".data, "how".data, "advice".data, "guide".data, "what should".data]

/-- app.py line 72: appreciation keywords, in source order. -/
def appreciation_keywords : List (List Char) :=
  ["thank".data, "thanks".data, "good job".data, "awesome".data]

/-- Python `any(word in msg for word in kws)`. -/
def containsAny (kws : List (List Char)) (msg : List Char) : Bool :=
  kws.any (fun k => isSubstr k msg)

/-- app.py lines 63-75, `SmartIbexAI.analyze_intent`: ordered keyword matching
on the lowercased message; the first matching category wins, default is
`casual`.  Intents are the Python strings the source uses. -/
def analyze_intent (message : List Char) : List Char :=
  if containsAny greeting_keywords (message.map Char.toLower) then "greeting".data
  else if containsAny threat_keywords (message.map Char.toLower) then "threat".data
  else if containsAny help_keywords (message.map Char.toLower) then "help".data
  else if containsAny appreciation_keywords (message.map Char.toLower) then "appreciation".data
  else "casual".data

/-- app.py line 34: personality prompt for `greeting`. -/
def pGreeting : List Char :=
  "I am IBEX, a witty AI security companion. Respond warmly with humor and offer protection.".data

/-- app.py line 35: personality prompt for `threat`. -/
def pThreat : List Char :=
  "I am IBEX, an expert cybersecurity AI. Analyze this threat seriously but with confidence and wit.".data

/-- app.py line 36: personality prompt for `help`. -/
def pHelp : List Char :=
  "I am IBEX, a helpful security AI. Provide clear, actionable advice with encouraging tone.".data

/-- app.py line 37: personality prompt for `casual`. -/
def pCasual : List Char :=
  "I am IBEX, a friendly AI companion focused on security. Be engaging while staying security-focused.".data

/-- app.py line 38: personality prompt for `appreciation`. -/
def pAppreciation : List Char :=
  "I am IBEX, a humble AI protector. Accept thanks graciously with humor.".data

/-- app.py line 84: `self.personality_prompts.get(intent, self.personality_prompts['casual'])`. -/
def personality_for (intent : List Char) : List Char :=
  if intent = "greeting".data then pGreeting
  else if intent = "threat".data then pThreat
  else if intent = "help".data then pHelp
  else if intent = "casual".data then pCasual
  else if intent = "appreciation".data then pAppreciation
  else pCasual

/-- A stored conversation exchange (app.py lines 171-174): the dict
`\x7b'user': ..., 'ai': ...\x7d` with both excerpts truncated to 50 chars. -/
structure Turn where
  user : List Char
  ai : List Char
deriving DecidableEq

/-- The ConversationTurn `update_context` creates from an exchange
(app.py lines 171-174): both excerpts truncated to 50 characters. -/
def mkTurn (p : List Char × List Char) : Turn :=
  ⟨p.1.take 50, p.2.take 50⟩

/-- app.py lines 169-178, `SmartIbexAI.update_context`: append the truncated
turn, then `pop(0)` if the store exceeds 3 turns. -/
def update_context (ctx : List Turn) (user_msg ai_response : List Char) : List Turn :=
  if 3 < (ctx ++ [mkTurn (user_msg, ai_response)]).length then
    (ctx ++ [mkTurn (user_msg, ai_response)]).tail
  else
    ctx ++ [mkTurn (user_msg, ai_response)]

/-- app.py line 91: one exchange rendered into the recent-context string. -/
def exchangeText (t : Turn) : List Char :=
  "User: ".data ++ t.user.take 30 ++ "... IBEX: ".data ++ t.ai.take 30 ++ "... ".data

/-- List concatenation of rendered exchanges (the `+=` loop of app.py line 90-91). -/
def concatAll : List (List Char) → List Char
  | [] => []
  | s :: rest => s ++ concatAll rest

/-- app.py lines 87-91: recent context summary from the last 2 exchanges
(empty when the store is empty). -/
def recent_context (ctx : List Turn) : List Char :=
  if ctx = [] then [] else concatAll ((lastN ctx 2).map exchangeText)

/-- app.py line 93: the f-string building the full prompt. -/
def build_full_prompt (intent : List Char) (ctx : List Turn) (message : List Char) : List Char :=
  personality_for intent ++ " ".data ++ recent_context ctx ++ " User says: ".data
    ++ message ++ " IBEX responds:".data

/-- app.py line 160: fallback for `greeting`. -/
def fbGreeting : List Char :=
  "Hey there! I\x27m IBEX, your witty AI security companion. Ready to keep you safe today?".data

/-- app.py line 161: fallback for `threat` (the leading characters are the
mojibake siren glyphs exactly as they appear in the source file). -/
def fbThreat : List Char :=
  "ðŸš¨ I\x27m analyzing this threat now. Stay calm - I\x27ve got your back on this one!".data

/-- app.py line 162: fallback for `help`. -/
def fbHelp : List Char :=
  "I\x27m here to help! Security is my specialty - what can I assist you with?".data

/-- app.py line 163: fallback for `casual`. -/
def fbCasual : List Char :=
  "I\x27m doing great! Always ready to chat and protect. What\x27s on your mind?".data

/-- app.py line 164: fallback for `appreciation`. -/
def fbAppreciation : List Char :=
  "You\x27re very welcome! Keeping you safe is what I do best!".data

/-- app.py line 167: the `.get` default fallback string. -/
def fbDefault : List Char :=
  "I\x27m IBEX, your intelligent security companion! How can I help you today?".data

/-- app.py lines 157-167, `SmartIbexAI.get_fallback_response`:
`fallbacks.get(intent, default)`.  The `message` argument is accepted and
ignored, exactly as in the source (no template interpolates it). -/
def get_fallback_response (intent message : List Char) : List Char :=
  if intent = "greeting".data then fbGreeting
  else if intent = "threat".data then fbThreat
  else if intent = "help".data then fbHelp
  else if intent = "casual".data then fbCasual
  else if intent = "appreciation".data then fbAppreciation
  else fbDefault

/-- app.py line 149: voice-threat suffix (mojibake glyphs as in the source). -/
def voiceTip : List Char :=
  " ðŸŽ¤ Voice threats are serious - always verify callers independently!".data

/-- app.py line 151: email-threat suffix. -/
def emailTip : List Char :=
  " ðŸ“§ Email security tip: Never click suspicious links!".data

/-- app.py line 153: generic threat suffix. -/
def shieldTip : List Char :=
  " ðŸ›¡ï¸ I\x27ve got your back on this security issue!".data

/-- app.py lines 147-153: the intent-specific suffix chosen by scanning the
lowercased original message. -/
def threat_suffix (original_message : List Char) : List Char :=
  let lower := original_message.map Char.toLower
  if isSubstr "voice".data lower then voiceTip
  else if isSubstr "email".data lower then emailTip
  else shieldTip

/-- app.py line 138: `[s.strip() for s in response.split('.') if s.strip()]`. -/
def clean_sentences (response : List Char) : List (List Char) :=
  ((splitDot response).map strip).filter (fun s => !s.isEmpty)

/-- app.py lines 142-144: join the first two sentences with `". "` and ensure
a trailing period. -/
def ensure_dot (s : List Char) : List Char :=
  if endsDot s then s else s ++ ['.']

/-- app.py lines 135-155, `SmartIbexAI.enhance_response`: sentence cleanup,
degenerate output delegated to the fallback synthesizer, and the
threat-intent suffix. -/
def enhance_response (response intent original_message : List Char) : List Char :=
  if clean_sentences response = [] then get_fallback_response intent original_message
  else if intent = "threat".data then
    ensure_dot (joinSents ((clean_sentences response).take 2)) ++ threat_suffix original_message
  else
    ensure_dot (joinSents ((clean_sentences response).take 2))

/-- app.py lines 113-127 (the post-processing part of the success path):
strip the echoed prompt when present (`full_prompt in response` followed by
`response.replace(full_prompt, "").strip()`), then enhance. -/
def post_process (raw full_prompt intent message : List Char) : List Char :=
  if isSubstr full_prompt raw then
    enhance_response (strip (removeAll full_prompt raw)) intent message
  else
    enhance_response (strip raw) intent message

/-- Outcome of one call to the external model inside the `try` block:
either some step raises (`failure`, app.py line 129) or decoding returns a
raw string (`success`, app.py line 113). -/
inductive GenAttempt where
  | failure : GenAttempt
  | success : List Char → GenAttempt
deriving DecidableEq

/-- app.py lines 77-133, `SmartIbexAI.generate_smart_response`.  `available`
models `BLENDERBOT_AVAILABLE and self.model is not None`; `gen` is the model
oracle.  Returns the response string together with the context store after
the call.  The `cxt` argument mirrors the source's unused `context`
parameter. -/
def generate_smart_response (available : Bool) (gen : GenAttempt) (ctx : List Turn)
    (message : List Char) (cxt : List Char) : List Char × List Turn :=
  let intent := analyze_intent message
  if available then
    match gen with
    | GenAttempt.success raw =>
      let full_prompt := build_full_prompt intent ctx message
      let clean_response := post_process raw full_prompt intent message
      (clean_response, update_context ctx message clean_response)
    | GenAttempt.failure => (get_fallback_response intent message, ctx)
  else
    (get_fallback_response intent message, ctx)

/-- The JSON body of a /chat request: the `message` and `context` keys, each
possibly absent.  `none` for `message` covers both a missing key and a falsy
(empty) body, which app.py line 208 treats identically. -/
structure ChatBody where
  message : Option (List Char)
  context : Option (List Char)
deriving DecidableEq

/-- The parts of the /chat HTTP response the claims are about: the 400 error
(app.py line 209), or a success JSON carrying `response` and the model tag
field (app.py lines 219-225). -/
inductive ChatResponse where
  | errorMessageRequired : ChatResponse
  | success : List Char → List Char → ChatResponse
deriving DecidableEq

/-- app.py lines 201-225, the `/chat` handler: reject a missing body or a
missing `message` key with the 400 error, otherwise run the pipeline and tag
the success payload with `'blenderbot' if BLENDERBOT_AVAILABLE else
'fallback'` (line 224). -/
def chat (available : Bool) (gen : GenAttempt) (ctx : List Turn)
    (data : Option ChatBody) : ChatResponse × List Turn :=
  match data with
  | none => (ChatResponse.errorMessageRequired, ctx)
  | some body =>
    match body.message with
    | none => (ChatResponse.errorMessageRequired, ctx)
    | some message =>
      let cxt := body.context.getD "general".data
      let r := generate_smart_response available gen ctx message cxt
      (ChatResponse.success r.fst
        (if available then "blenderbot".data else "fallback".data), r.snd)

/-- Folding a whole sequence of exchanges into the context store, starting
from the empty store (a fresh `SmartIbexAI` instance, app.py line 30). -/
def appendAll (ps : List (List Char × List Char)) : List Turn :=
  ps.foldl (fun ctx p => update_context ctx p.1 p.2) []

/-- The scenario string of the spec's post-processing property. -/
def staySafe : List Char := "Stay safe out there.".data

/-! Helper lemmas -/

theorem isPre_append_self (p s : List Char) : p.isPrefixOf (p ++ s) = true := by
  induction p with
  | nil => simp [List.isPrefixOf]
  | cons a as ih => simp [List.isPrefixOf, ih]

theorem isSubstr_nil_pat (s : List Char) : isSubstr [] s = true := by
  cases s with
  | nil => rfl
  | cons c rest => simp [isSubstr, List.isPrefixOf]

theorem isSubstr_append_self (p s : List Char) (h : p ≠ []) :
    isSubstr p (p ++ s) = true := by
  cases p with
  | nil => exact absurd rfl h
  | cons q qs =>
    show isSubstr (q :: qs) ((q :: qs) ++ s) = true
    simp [isSubstr, isPre_append_self]

theorem drop_length_append (l₁ l₂ : List Char) : (l₁ ++ l₂).drop l₁.length = l₂ := by
  induction l₁ with
  | nil => simp
  | cons a as ih => simpa using ih

theorem removeAllFuel_nil_pat : ∀ (fuel : Nat) (s : List Char),
    removeAllFuel fuel [] s = s := by
  intro fuel
  induction fuel with
  | zero => intro s; rfl
  | succ f ih =>
    intro s
    cases s with
    | nil => rfl
    | cons c rest =>
      simp only [removeAllFuel]
      rw [if_neg]
      · rw [ih rest]
      · rintro ⟨h, _⟩; exact h rfl

theorem removeAllFuel_no_occur : ∀ (fuel : Nat) (p s : List Char),
    isSubstr p s = false → s.length ≤ fuel → removeAllFuel fuel p s = s := by
  intro fuel
  induction fuel with
  | zero => intro p s _ _; rfl
  | succ f ih =>
    intro p s h hl
    cases s with
    | nil => rfl
    | cons c rest =>
      have h2 : p.isPrefixOf (c :: rest) = false ∧ isSubstr p rest = false := by
        simpa [isSubstr] using h
      simp only [removeAllFuel]
      rw [if_neg]
      · rw [ih p rest h2.2 (by simpa using Nat.le_of_succ_le_succ hl)]
      · rintro ⟨_, hpre⟩
        rw [h2.1] at hpre
        exact Bool.false_ne_true hpre

theorem removeAll_append_self (p s : List Char) (h : isSubstr p s = false) :
    removeAll p (p ++ s) = s := by
  cases hp : p with
  | nil =>
    subst hp
    rw [removeAll, removeAllFuel_nil_pat]
    simp
  | cons q qs =>
    subst hp
    show removeAllFuel ((q :: qs) ++ s).length (q :: qs) ((q :: qs) ++ s) = s
    have hlen : ((q :: qs) ++ s).length = (qs.length + s.length) + 1 := by
      simp [List.length_append]
    rw [hlen]
    simp only [removeAllFuel]
    rw [if_pos]
    · have hd : ((q :: qs) ++ s).drop (q :: qs).length = s := drop_length_append _ _
      simp only [List.cons_append, List.append_eq] at hd ⊢
      rw [hd]
      exact removeAllFuel_no_occur _ _ _ h (by omega)
    · exact ⟨by simp, isPre_append_self (q :: qs) s⟩

theorem map_drop_comm {α β : Type} (f : α → β) :
    ∀ (n : Nat) (l : List α), (l.drop n).map f = (l.map f).drop n := by
  intro n
  induction n with
  | zero => intro l; simp
  | succ m ih =>
    intro l
    cases l with
    | nil => simp
    | cons x xs => simpa using ih xs

theorem fallback_ne_nil (intent message : List Char) :
    get_fallback_response intent message ≠ [] := by
  unfold get_fallback_response
  split_ifs <;> decide

theorem endsDot_true_ne_nil (s : List Char) (h : endsDot s = true) : s ≠ [] := by
  intro hs
  subst hs
  exact Bool.false_ne_true h

theorem ensure_dot_ne_nil (s : List Char) : ensure_dot s ≠ [] := by
  unfold ensure_dot
  split_ifs with h
  · exact endsDot_true_ne_nil s h
  · simp

theorem enhance_ne_nil (response intent original_message : List Char) :
    enhance_response response intent original_message ≠ [] := by
  unfold enhance_response
  split_ifs with h1 h2
  · exact fallback_ne_nil intent original_message
  · intro hc
    rcases List.append_eq_nil.mp hc with ⟨hc1, _⟩
    exact ensure_dot_ne_nil _ hc1
  · exact ensure_dot_ne_nil _

theorem post_process_ne_nil (raw full_prompt intent message : List Char) :
    post_process raw full_prompt intent message ≠ [] := by
  unfold post_process
  split_ifs <;> exact enhance_ne_nil _ _ _

theorem lastN_of_len_le {α : Type} (l : List α) (n : Nat) (h : l.length ≤ n) :
    lastN l n = l := by
  unfold lastN
  rw [Nat.sub_eq_zero_of_le h, List.drop_zero]

theorem lastN_cons {α : Type} (x : α) (t : List α) (n : Nat) (h : n ≤ t.length) :
    lastN (x :: t) n = lastN t n := by
  unfold lastN
  have he : (x :: t).length - n = (t.length - n) + 1 := by
    simp only [List.length_cons]
    omega
  rw [he, List.drop_succ_cons]

theorem update_context_length (ctx : List Turn) (u a : List Char) (h : ctx.length ≤ 3) :
    (update_context ctx u a).length ≤ 3 := by
  unfold update_context
  split_ifs with h1 <;> simp_all [List.length_tail, List.length_append]

theorem update_context_lastN (ctx : List Turn) (u a : List Char) (rest : List Turn)
    (h : ctx.length ≤ 3) :
    lastN (update_context ctx u a ++ rest) 3 = lastN (ctx ++ mkTurn (u, a) :: rest) 3 := by
  unfold update_context
  split_ifs with h1
  · -- eviction case: ctx has exactly 3 turns
    have h3 : ctx.length = 3 := by simp [List.length_append] at h1; omega
    cases ctx with
    | nil => simp at h3
    | cons c cs =>
      have hcs : cs.length = 2 := by simpa using h3
      show lastN ((cs ++ [mkTurn (u, a)]) ++ rest) 3 = lastN (c :: (cs ++ mkTurn (u, a) :: rest)) 3
      rw [lastN_cons c (cs ++ mkTurn (u, a) :: rest) 3 (by simp [hcs]; omega)]
      simp [List.append_assoc]
  · simp [List.append_assoc]

theorem foldl_update_eq (ps : List (List Char × List Char)) :
    ∀ ctx : List Turn, ctx.length ≤ 3 →
      ps.foldl (fun c p => update_context c p.1 p.2) ctx = lastN (ctx ++ ps.map mkTurn) 3 := by
  induction ps with
  | nil =>
    intro ctx h
    simpa using (lastN_of_len_le ctx 3 h).symm
  | cons p ps ih =>
    intro ctx h
    rw [List.foldl_cons, ih _ (update_context_length ctx p.1 p.2 h)]
    have := update_context_lastN ctx p.1 p.2 (ps.map mkTurn) h
    simpa using this

theorem appendAll_eq (ps : List (List Char × List Char)) :
    appendAll ps = (lastN ps 3).map mkTurn := by
  unfold appendAll
  rw [foldl_update_eq ps [] (by simp)]
  simp only [List.nil_append]
  unfold lastN
  rw [List.length_map, map_drop_comm]

theorem clean_sentences_staySafe :
    clean_sentences staySafe = ["Stay safe out there".data] := by decide

theorem strip_staySafe : strip staySafe = staySafe := by decide

theorem enhance_staySafe (intent msg : List Char) (hi : intent ≠ "threat".data) :
    enhance_response staySafe intent msg = staySafe := by
  unfold enhance_response
  rw [clean_sentences_staySafe, if_neg (by decide), if_neg hi]
  decide

theorem removeAll_full_prompt (full_prompt : List Char)
    (hp : full_prompt = [] ∨ isSubstr full_prompt staySafe = false) :
    removeAll full_prompt (full_prompt ++ staySafe) = staySafe := by
  rcases hp with hp | hp
  · subst hp
    rw [List.nil_append, removeAll, removeAllFuel_nil_pat]
  · exact removeAll_append_self full_prompt staySafe hp

theorem isSubstr_full_prompt (full_prompt : List Char)
    (hp : full_prompt = [] ∨ isSubstr full_prompt staySafe = false) :
    isSubstr full_prompt (full_prompt ++ staySafe) = true := by
  rcases hp with hp | hp
  · subst hp
    rw [List.nil_append]
    exact isSubstr_nil_pat staySafe
  · refine isSubstr_append_self full_prompt staySafe ?_
    intro hne
    subst hne
    rw [isSubstr_nil_pat] at hp
    simp at hp

theorem generate_unavailable (gen : GenAttempt) (ctx : List Turn) (msg cxt : List Char) :
    generate_smart_response false gen ctx msg cxt
      = (get_fallback_response (analyze_intent msg) msg, ctx) := rfl

theorem chat_fst_eq (available : Bool) (gen : GenAttempt) (ctx : List Turn)
    (msg : List Char) (c : Option (List Char)) :
    (chat available gen ctx (some ⟨some msg, c⟩)).fst
      = ChatResponse.success
          (generate_smart_response available gen ctx msg (c.getD "general".data)).fst
          (if available then "blenderbot".data else "fallback".data) := rfl

/-! Claim theorems -/

/-- C1, counterexample: for the request whose `message` field is present but
equal to the empty string, the /chat handler does NOT return the
MalformedRequest error; it runs the pipeline and the returned response is
exactly the Fallback Synthesizer's output for the `casual` intent (shown with
the model unavailable), so the fallback IS invoked, contrary to the claim. -/
theorem chat_empty_message_counterexample :
    (chat false GenAttempt.failure [] (some ⟨some [], none⟩)).fst
      = ChatResponse.success (get_fallback_response "casual".data []) "fallback".data ∧
    (chat false GenAttempt.failure [] (some ⟨some [], none⟩)).fst
      ≠ ChatResponse.errorMessageRequired := by
  exact ⟨by decide, by decide⟩

/-- C1, amended: the MalformedRequest error is produced exactly when the
request body is absent/falsy or lacks the `message` key; a present-but-empty
`message` is tolerated and routed through the pipeline (classifying as
`casual` and answered by the fallback when the model is unavailable). -/
theorem chat_error_iff_message_missing (available : Bool) (gen : GenAttempt)
    (ctx : List Turn) (c : Option (List Char)) :
    (chat available gen ctx (some ⟨some [], c⟩)).fst ≠ ChatResponse.errorMessageRequired ∧
    (chat false gen ctx (some ⟨some [], c⟩)).fst
      = ChatResponse.success (get_fallback_response "casual".data []) "fallback".data ∧
    (chat available gen ctx none).fst = ChatResponse.errorMessageRequired ∧
    (chat available gen ctx (some ⟨none, c⟩)).fst = ChatResponse.errorMessageRequired := by
  refine ⟨?_, ?_, rfl, rfl⟩
  · intro h
    rw [chat_fst_eq] at h
    exact ChatResponse.noConfusion h
  · rw [chat_fst_eq, generate_unavailable]
    have hcas : analyze_intent [] = "casual".data := by decide
    rw [hcas]
    simp

/-- C2, counterexample: the message "hello threat" contains both the greeting
keyword "hello" and the threat keyword "threat", yet `analyze_intent` returns
`greeting`, not `threat`: the source checks the greeting category FIRST
(app.py line 66 before line 68), so the claim's priority order is false. -/
theorem analyze_intent_greeting_beats_threat :
    "hello".data ∈ greeting_keywords ∧
    isSubstr "hello".data ("hello threat".data.map Char.toLower) = true ∧
    "threat".data ∈ threat_keywords ∧
    isSubstr "threat".data ("hello threat".data.map Char.toLower) = true ∧
    analyze_intent "hello threat".data = "greeting".data ∧
    analyze_intent "hello threat".data ≠ "threat".data := by
  exact ⟨by decide, by decide, by decide, by decide, by decide, by decide⟩

/-- C2, amended: greeting keywords are checked before threat keywords, so a
message containing both resolves to `greeting`; `analyze_intent` returns the
threat intent exactly for messages containing a threat keyword and NO
greeting keyword. -/
theorem analyze_intent_threat_of_no_greeting (msg : List Char)
    (ht : containsAny threat_keywords (msg.map Char.toLower) = true)
    (hg : containsAny greeting_keywords (msg.map Char.toLower) = false) :
    analyze_intent msg = "threat".data := by
  unfold analyze_intent
  rw [if_neg (by simp [hg]), if_pos ht]

/-- Witness for the amended C2 at the concrete message "threat". -/
theorem analyze_intent_threat_of_no_greeting_witness :
    containsAny threat_keywords ("threat".data.map Char.toLower) = true ∧
    containsAny greeting_keywords ("threat".data.map Char.toLower) = false ∧
    analyze_intent "threat".data = "threat".data :=
  ⟨by decide, by decide,
    analyze_intent_threat_of_no_greeting "threat".data (by decide) (by decide)⟩

/-- C3, counterexample: with the model unavailable, the request "hello" is
successfully answered (a non-empty fallback response is returned) yet NO
ConversationTurn is appended: the context store is unchanged, because
`update_context` is called only on the generated path (app.py line 125),
not on the fallback paths (lines 131, 133). -/
theorem fallback_path_context_unchanged_cex :
    (generate_smart_response false GenAttempt.failure [] "hello".data "general".data).fst
      = get_fallback_response "greeting".data "hello".data ∧
    (generate_smart_response false GenAttempt.failure [] "hello".data "general".data).fst ≠ [] ∧
    (generate_smart_response false GenAttempt.failure [] "hello".data "general".data).snd = [] := by
  exact ⟨by decide, by decide, by decide⟩

/-- C3, amended: exactly one ConversationTurn is appended (with FIFO
eviction) only on the generated path, including when post-processing
delegates degenerate output to the fallback synthesizer; on the
model-unavailable and in-call-failure fallback paths the context store is
returned unchanged. -/
theorem context_update_paths (ctx : List Turn) (msg cxt : List Char) :
    (∀ raw, (generate_smart_response true (GenAttempt.success raw) ctx msg cxt).snd
        = update_context ctx msg
            ((generate_smart_response true (GenAttempt.success raw) ctx msg cxt).fst)) ∧
    (generate_smart_response true GenAttempt.failure ctx msg cxt).snd = ctx ∧
    (∀ gen, (generate_smart_response false gen ctx msg cxt).snd = ctx) :=
  ⟨fun _ => rfl, rfl, fun _ => rfl⟩

/-- C4, counterexample: with the availability flag set but the model call
raising, the /chat response string is exactly the Fallback Synthesizer's
output, yet the model field reads 'blenderbot', not 'fallback' — the tag
reflects only the process-level flag (app.py line 224), not which component
produced the response. -/
theorem model_tag_blenderbot_on_fallback_cex :
    (chat true GenAttempt.failure [] (some ⟨some "hello".data, none⟩)).fst
      = ChatResponse.success (get_fallback_response "greeting".data "hello".data)
          "blenderbot".data ∧
    "blenderbot".data ≠ "fallback".data := by
  exact ⟨by decide, by decide⟩

/-- C4, amended: the success response's model field (named `model` in the
source, not `model_used`) equals 'blenderbot' when the process-level
availability flag is set and 'fallback' otherwise, independently of whether
the returned string came from the fallback synthesizer. -/
theorem model_tag_reflects_availability_only (available : Bool) (gen : GenAttempt)
    (ctx : List Turn) (msg : List Char) (c : Option (List Char)) :
    (chat available gen ctx (some ⟨some msg, c⟩)).fst
      = ChatResponse.success
          (generate_smart_response available gen ctx msg (c.getD "general".data)).fst
          (if available then "blenderbot".data else "fallback".data) :=
  chat_fst_eq available gen ctx msg c

/-- C5: starting from the empty store, after any sequence of appends the
context store holds at most 3 turns, and once more than 3 exchanges have
been appended it holds exactly the ConversationTurns created from the last 3
exchanges, in their original insertion order (FIFO eviction of the oldest).
Each stored turn carries the 50-character-truncated excerpts, as
ConversationTurn creation specifies. -/
theorem context_store_capacity_fifo (ps : List (List Char × List Char)) :
    (appendAll ps).length ≤ 3 ∧
    (3 < ps.length → appendAll ps = (lastN ps 3).map mkTurn) := by
  constructor
  · rw [appendAll_eq, List.length_map]
    unfold lastN
    rw [List.length_drop]
    omega
  · intro _
    exact appendAll_eq ps

/-- Witness for C5 at a concrete sequence of four appends. -/
theorem context_store_capacity_fifo_witness :
    3 < ([("a".data, "b".data), ("c".data, "d".data), ("e".data, "f".data),
          ("g".data, "h".data)] : List (List Char × List Char)).length ∧
    appendAll [("a".data, "b".data), ("c".data, "d".data), ("e".data, "f".data),
               ("g".data, "h".data)]
      = (lastN [("a".data, "b".data), ("c".data, "d".data), ("e".data, "f".data),
                ("g".data, "h".data)] 3).map mkTurn :=
  ⟨by decide, (context_store_capacity_fifo _).2 (by decide)⟩

/-- C6: if the model call raises during generation (the `except` branch at
app.py line 129), the pipeline's final output is exactly
`get_fallback_response (analyze_intent message) message` — no partial
generated text leaks through. -/
theorem generation_failure_yields_fallback (ctx : List Turn) (msg cxt : List Char) :
    (generate_smart_response true GenAttempt.failure ctx msg cxt).fst
      = get_fallback_response (analyze_intent msg) msg := rfl

/-- C7: for every input message and every model outcome — generated path or
either fallback path — the response string emitted by the pipeline is
non-empty. -/
theorem response_nonempty (available : Bool) (gen : GenAttempt) (ctx : List Turn)
    (msg cxt : List Char) :
    (generate_smart_response available gen ctx msg cxt).fst ≠ [] := by
  cases available with
  | false =>
    show get_fallback_response (analyze_intent msg) msg ≠ []
    exact fallback_ne_nil _ _
  | true =>
    cases gen with
    | failure =>
      show get_fallback_response (analyze_intent msg) msg ≠ []
      exact fallback_ne_nil _ _
    | success raw =>
      show post_process raw (build_full_prompt (analyze_intent msg) ctx msg)
          (analyze_intent msg) msg ≠ []
      exact post_process_ne_nil _ _ _ _

/-- C8: the fallback synthesizer returns a non-empty string for every intent
string (the five defined intents and, via the `.get` default, any other
value), and its output is independent of the message: no template
interpolates the original message, so the claim's interpolation clause is
vacuously satisfied. -/
theorem fallback_nonempty_no_interpolation (intent message : List Char) :
    get_fallback_response intent message ≠ [] ∧
    get_fallback_response intent message = get_fallback_response intent [] :=
  ⟨fallback_ne_nil intent message, rfl⟩

/-- C9, counterexample: for the threat intent (message "threat"), post-
processing the raw string prompt ++ "Stay safe out there." strips the prompt
but then appends the generic safety suffix (app.py line 153), so the result
is NOT exactly one cleaned sentence ending in a period — it ends in '!'. -/
theorem post_process_threat_suffix_cex :
    analyze_intent "threat".data = "threat".data ∧
    post_process ("P: ".data ++ staySafe) "P: ".data "threat".data "threat".data
      = staySafe ++ shieldTip ∧
    (staySafe ++ shieldTip).getLast? ≠ some '.' := by
  exact ⟨by decide, by decide, by decide⟩

/-- C9, amended: for prompts that do not themselves occur inside
"Stay safe out there." (so that `replace` removes exactly the echoed prompt)
and for intents other than threat, post-processing prompt ++
"Stay safe out there." returns exactly "Stay safe out there." — one cleaned
sentence ending in a period; the threat intent additionally appends a safety
suffix. -/
theorem post_process_strips_echo (full_prompt intent msg : List Char)
    (hp : full_prompt = [] ∨ isSubstr full_prompt staySafe = false)
    (hi : intent ≠ "threat".data) :
    post_process (full_prompt ++ staySafe) full_prompt intent msg = staySafe ∧
    (clean_sentences staySafe).length = 1 ∧
    endsDot staySafe = true := by
  refine ⟨?_, by decide, by decide⟩
  unfold post_process
  rw [if_pos (isSubstr_full_prompt full_prompt hp), removeAll_full_prompt full_prompt hp,
      strip_staySafe]
  exact enhance_staySafe intent msg hi

/-- Witness for the amended C9 at the concrete prompt "Q" and intent casual. -/
theorem post_process_strips_echo_witness :
    (("Q".data : List Char) = [] ∨ isSubstr "Q".data staySafe = false) ∧
    ("casual".data : List Char) ≠ "threat".data ∧
    (post_process ("Q".data ++ staySafe) "Q".data "casual".data "hi".data = staySafe ∧
      (clean_sentences staySafe).length = 1 ∧
      endsDot staySafe = true) :=
  ⟨Or.inr (by decide), by decide,
    post_process_strips_echo "Q".data "casual".data "hi".data (Or.inr (by decide)) (by decide)⟩

/-- C10: keyword matching is raw substring containment on the lowercased
message, not word-boundary matching: "this" contains "hi" inside a longer
word and classifies as greeting, and any message whose lowercased text
contains any category keyword (even embedded in a longer word) does not fall
through to the default casual intent. -/
theorem keyword_matching_is_substring :
    analyze_intent "this".data = "greeting".data ∧
    ∀ msg : List Char,
      containsAny (greeting_keywords ++ threat_keywords ++ help_keywords
          ++ appreciation_keywords) (msg.map Char.toLower) = true →
      analyze_intent msg ≠ "casual".data := by
  refine ⟨by decide, ?_⟩
  intro msg h
  unfold analyze_intent
  split_ifs with h1 h2 h3 h4
  · decide
  · decide
  · decide
  · decide
  · exfalso
    simp only [containsAny, List.any_append, Bool.or_eq_true] at h
    simp only [containsAny] at h1 h2 h3 h4
    tauto

/-- Witness for C10 at the concrete message "washing" ("hi" embedded). -/
theorem keyword_matching_is_substring_witness :
    containsAny (greeting_keywords ++ threat_keywords ++ help_keywords
        ++ appreciation_keywords) ("washing".data.map Char.toLower) = true ∧
    analyze_intent "washing".data ≠ "casual".data :=
  ⟨by decide, keyword_matching_is_substring.2 "washing".data (by decide)⟩
